import Mathlib

/-!
# Verification of `exemplar_reservoir.py`

Shallow embedding of the exemplar-reservoir module of the OpenTelemetry
Python SDK (`opentelemetry/sdk/metrics/_internal/exemplar/exemplar_reservoir.py`)
together with proofs about the embedded operations.

Modelling choices:
* measurement values and histogram boundaries are rationals (`ℚ`): the code
  only compares them with `≤`, never computes with them;
* timestamps, span ids and trace ids are integers;
* `Attributes` (from `opentelemetry.util.types`) is an optional mapping,
  modelled as `Option` of an insertion-ordered association list;
* Python exceptions (`TypeError` from `k not in None`, `ValueError` from
  `randrange(0, n)` with `n ≤ 0`, `IndexError` from list indexing) are made
  explicit with `Except String`;
* the random draw `randrange(0, self._measurements_seen)` is modelled by an
  explicit parameter `r` passed to `offer`: theorems quantify over it.
-/

/-- Attribute values (scalars; only key identity matters to this code). -/
abbrev AttrVal := Int

/-- `Attributes`: `None` or a mapping from string keys to values, modelled as
an insertion-ordered association list (Python `dict` semantics). -/
abbrev Attributes := Option (List (String × AttrVal))

/-- The span context from which `ExemplarBucket.offer` reads `span_id` and
`trace_id` (`span.get_span_context()`). -/
structure SpanContext where
  span_id : Int
  trace_id : Int
deriving DecidableEq

/-- The ambient context handle: `trace.get_current_span(ctx)` either yields a
valid span (`some`) or `INVALID_SPAN` (`none`). -/
abbrev Context := Option SpanContext

/-- Key membership in an association list: Python `k in d` for a dict `d`. -/
def attrsHasKeyL (l : List (String × AttrVal)) (k : String) : Bool :=
  l.any (fun kv => kv.1 == k)

/-- Key membership in an `Attributes` value that is known to be a mapping.
(`k in None` is a `TypeError` in Python; that path is modelled where it
occurs, in `ExemplarBucket.collect`.) -/
def attrsHasKey (a : Attributes) (k : String) : Bool :=
  match a with
  | none => false
  | some l => attrsHasKeyL l k

/-- First-match lookup in an association list: Python `d[k]` / dict identity
up to key-value contents. -/
def lookupL (l : List (String × AttrVal)) (k : String) : Option AttrVal :=
  match l with
  | [] => none
  | (k', v) :: t => if k' == k then some v else lookupL t k

/-- Lookup in an `Attributes` value; an absent mapping has no keys. -/
def attrLookup (a : Attributes) (k : String) : Option AttrVal :=
  match a with
  | none => none
  | some l => lookupL l k

/-- The `Exemplar` value object (module `exemplar.py`): immutable record of
one retained sample, produced only by `ExemplarBucket.collect`. -/
structure Exemplar where
  filtered_attributes : Attributes
  value : ℚ
  time_unix_nano : Int
  span_id : Option Int
  trace_id : Option Int
deriving DecidableEq

/-- `ExemplarBucket`: one mutable slot, fields as in `ExemplarBucket.__init__`. -/
structure ExemplarBucket where
  value : ℚ
  attributes : Attributes
  time_unix_nano : Int
  span_id : Option Int
  trace_id : Option Int
  offered : Bool
deriving DecidableEq

/-- `ExemplarBucket.__init__`: value 0, attributes `None`, ids absent,
`offered = False`. -/
def ExemplarBucket.init : ExemplarBucket :=
  ⟨0, none, 0, none, none, false⟩

/-- `ExemplarBucket.offer`: store value, timestamp and attributes
unconditionally; capture span and trace ids only when the context holds a
valid span (`if span != INVALID_SPAN`); finally set `offered = True`. -/
def ExemplarBucket.offer (b : ExemplarBucket) (value : ℚ) (time_unix_nano : Int)
    (attributes : Attributes) (ctx : Context) : ExemplarBucket :=
  let b1 := { b with value := value, time_unix_nano := time_unix_nano,
                     attributes := attributes }
  let b2 := match ctx with
    | some sc => { b1 with span_id := some sc.span_id, trace_id := some sc.trace_id }
    | none => b1
  { b2 with offered := true }

/-- `ExemplarBucket.__reset`: value 0, attributes `{}` (the empty mapping,
not `None`), ids absent, `offered = False`. -/
def ExemplarBucket.reset : ExemplarBucket :=
  ⟨0, some [], 0, none, none, false⟩

/-- The dict comprehension in `ExemplarBucket.collect`:
`{k: v for k, v in self.__attributes.items() if k not in point_attributes}`
guarded by `if self.__attributes` (so `None` and the empty dict both yield
`None`). When the stored attributes are a non-empty mapping and
`point_attributes` is `None`, `k not in None` raises `TypeError`. -/
def filterAttrs (attrs : Attributes) (point_attributes : Attributes) :
    Except String Attributes :=
  match attrs with
  | none => .ok none
  | some [] => .ok none
  | some l =>
    match point_attributes with
    | none => .error "TypeError"
    | some pl => .ok (some (l.filter (fun kv => !(attrsHasKeyL pl kv.1))))

/-- `ExemplarBucket.collect`: `None` when not offered; otherwise build an
`Exemplar` from the filtered attributes and the stored fields, and reset the
bucket. -/
def ExemplarBucket.collect (b : ExemplarBucket) (point_attributes : Attributes) :
    Except String (Option Exemplar × ExemplarBucket) :=
  if b.offered then
    match filterAttrs b.attributes point_attributes with
    | .error e => .error e
    | .ok fa =>
      .ok (some ⟨fa, b.value, b.time_unix_nano, b.span_id, b.trace_id⟩,
           ExemplarBucket.reset)
  else
    .ok (none, b)

/-- The body of `FixedSizeExemplarReservoirABC.collect`: collect every bucket
in index order, keep the non-`None` exemplars, return the collected buckets.
(Python materialises the lazy `map`/`filter` left to right, so the first
exception wins, as here.) -/
def collectBuckets (point_attributes : Attributes) :
    List ExemplarBucket → Except String (List Exemplar × List ExemplarBucket)
  | [] => .ok ([], [])
  | b :: bs =>
    match b.collect point_attributes with
    | .error e => .error e
    | .ok (o, b') =>
      match collectBuckets point_attributes bs with
      | .error e => .error e
      | .ok (es, bs') =>
        .ok ((match o with | some ex => ex :: es | none => es), b' :: bs')

/-- Python list indexing for an `int` index: negative indexes wrap once;
out-of-range indexes are an `IndexError` (modelled as `none`). -/
def pyIdx (len : Nat) (i : Int) : Option Nat :=
  let j := if i < 0 then i + len else i
  if 0 ≤ j ∧ j < (len : Int) then some j.toNat else none

/-- State of `SimpleFixedSizeExemplarReservoir`: `_size`,
`_reservoir_storage` and `_measurements_seen`. -/
structure SimpleFixedSizeExemplarReservoir where
  size : Int
  reservoir_storage : List ExemplarBucket
  measurements_seen : Int
deriving DecidableEq

namespace SimpleFixedSizeExemplarReservoir

/-- `SimpleFixedSizeExemplarReservoir.__init__` (via
`FixedSizeExemplarReservoirABC.__init__`): `size` buckets
(`range(size)` is empty when `size ≤ 0` — no validation), counter 0. -/
def init (size : Int) : SimpleFixedSizeExemplarReservoir :=
  ⟨size, List.replicate size.toNat ExemplarBucket.init, 0⟩

/-- `SimpleFixedSizeExemplarReservoir._find_bucket_index`, with the random
draw `randrange(0, self._measurements_seen)` supplied as `r`.
Note: the early return on the reservoir-filling branch does NOT touch
`_measurements_seen`; the counter is incremented only on the random-draw
branch, exactly as in the source. `randrange(0, n)` raises `ValueError`
when `n ≤ 0`. -/
def findBucketIndex (s : SimpleFixedSizeExemplarReservoir) (r : Int) :
    Except String (Int × SimpleFixedSizeExemplarReservoir) :=
  if s.measurements_seen < s.size then
    .ok (s.measurements_seen, s)
  else if s.measurements_seen ≤ 0 then
    .error "ValueError"
  else
    .ok (if r < s.size then r else -1,
         { s with measurements_seen := s.measurements_seen + 1 })

/-- `SimpleFixedSizeExemplarReservoir.offer`: find the bucket index; when it
is not the sentinel `-1`, write the measurement into that bucket.
(In every state the API reaches, the index is nonnegative; `pyIdx` models
Python's indexing on the storage list.) -/
def offer (s : SimpleFixedSizeExemplarReservoir) (value : ℚ)
    (time_unix_nano : Int) (attributes : Attributes) (ctx : Context) (r : Int) :
    Except String SimpleFixedSizeExemplarReservoir :=
  match s.findBucketIndex r with
  | .error e => .error e
  | .ok (index, s') =>
    if index = -1 then .ok s'
    else
      match pyIdx s'.reservoir_storage.length index with
      | none => .error "IndexError"
      | some n =>
        let b := (s'.reservoir_storage.getD n ExemplarBucket.init).offer
          value time_unix_nano attributes ctx
        .ok { s' with reservoir_storage := s'.reservoir_storage.set n b }

/-- `collect` (inherited `FixedSizeExemplarReservoirABC.collect` plus the
`_reset` override): collect all buckets, then zero `_measurements_seen`. -/
def collect (s : SimpleFixedSizeExemplarReservoir) (point_attributes : Attributes) :
    Except String (List Exemplar × SimpleFixedSizeExemplarReservoir) :=
  match collectBuckets point_attributes s.reservoir_storage with
  | .error e => .error e
  | .ok (es, st) =>
    .ok (es, { s with reservoir_storage := st, measurements_seen := 0 })

end SimpleFixedSizeExemplarReservoir

/-- State of `AlignedHistogramBucketExemplarReservoir`: `_size`,
`_reservoir_storage` and `_boundaries`. -/
structure AlignedHistogramBucketExemplarReservoir where
  size : Int
  reservoir_storage : List ExemplarBucket
  boundaries : List ℚ
deriving DecidableEq

namespace AlignedHistogramBucketExemplarReservoir

/-- `AlignedHistogramBucketExemplarReservoir.__init__`:
`super().__init__(len(boundaries) + 1)`, then store the boundaries. -/
def init (boundaries : List ℚ) : AlignedHistogramBucketExemplarReservoir :=
  ⟨(boundaries.length : Int) + 1,
   List.replicate (boundaries.length + 1) ExemplarBucket.init,
   boundaries⟩

/-- `AlignedHistogramBucketExemplarReservoir._find_bucket_index`: the index of
the first boundary `b` with `value ≤ b`, else `len(boundaries)`. -/
def findBucketIndex (boundaries : List ℚ) (value : ℚ) : Nat :=
  match boundaries with
  | [] => 0
  | b :: bs => if value ≤ b then 0 else findBucketIndex bs value + 1

/-- `AlignedHistogramBucketExemplarReservoir.offer`: write the measurement
into the bucket selected by `_find_bucket_index`, unconditionally. -/
def offer (s : AlignedHistogramBucketExemplarReservoir) (value : ℚ)
    (time_unix_nano : Int) (attributes : Attributes) (ctx : Context) :
    Except String AlignedHistogramBucketExemplarReservoir :=
  match pyIdx s.reservoir_storage.length ((findBucketIndex s.boundaries value : Nat) : Int) with
  | none => .error "IndexError"
  | some n =>
    let b := (s.reservoir_storage.getD n ExemplarBucket.init).offer
      value time_unix_nano attributes ctx
    .ok { s with reservoir_storage := s.reservoir_storage.set n b }

/-- `collect` (inherited `FixedSizeExemplarReservoirABC.collect`; the base
`_reset` hook is a no-op for this subclass). -/
def collect (s : AlignedHistogramBucketExemplarReservoir)
    (point_attributes : Attributes) :
    Except String (List Exemplar × AlignedHistogramBucketExemplarReservoir) :=
  match collectBuckets point_attributes s.reservoir_storage with
  | .error e => .error e
  | .ok (es, st) => .ok (es, { s with reservoir_storage := st })

end AlignedHistogramBucketExemplarReservoir

/-- States of a `SimpleFixedSizeExemplarReservoir` of capacity `N` reachable
from construction through successful `offer` and `collect` calls (the random
draw `r` is arbitrary). -/
inductive SimpleReachable : Nat → SimpleFixedSizeExemplarReservoir → Prop
  | init (N : Nat) : SimpleReachable N (SimpleFixedSizeExemplarReservoir.init N)
  | offer {N s v t a c r s'} : SimpleReachable N s →
      s.offer v t a c r = .ok s' → SimpleReachable N s'
  | collect {N s pa res s'} : SimpleReachable N s →
      s.collect pa = .ok (res, s') → SimpleReachable N s'

/-- States of an `AlignedHistogramBucketExemplarReservoir` built from the
boundary list `bs`, reachable through successful `offer` and `collect` calls. -/
inductive AlignedReachable : List ℚ → AlignedHistogramBucketExemplarReservoir → Prop
  | init (bs : List ℚ) :
      AlignedReachable bs (AlignedHistogramBucketExemplarReservoir.init bs)
  | offer {bs s v t a c s'} : AlignedReachable bs s →
      s.offer v t a c = .ok s' → AlignedReachable bs s'
  | collect {bs s pa res s'} : AlignedReachable bs s →
      s.collect pa = .ok (res, s') → AlignedReachable bs s'

/-! ## Helper lemmas -/

theorem getD_set_self {α : Type} :
    ∀ (l : List α) (i : Nat) (x d : α), i < l.length → (l.set i x).getD i d = x := by
  intro l
  induction l with
  | nil => intro i x d h; simp at h
  | cons hd tl ih =>
    intro i x d h
    cases i with
    | zero => rfl
    | succ j => simpa using ih j x d (by simpa using h)

theorem getD_set_ne {α : Type} :
    ∀ (l : List α) (i j : Nat) (x d : α), j ≠ i → (l.set i x).getD j d = l.getD j d := by
  intro l
  induction l with
  | nil => intro i j x d _; simp
  | cons hd tl ih =>
    intro i j x d hne
    cases i with
    | zero =>
      cases j with
      | zero => exact absurd rfl hne
      | succ j' => simp
    | succ i' =>
      cases j with
      | zero => simp
      | succ j' => simpa using ih i' j' x d (by omega)

theorem attrsHasKeyL_eq_isSome :
    ∀ (l : List (String × AttrVal)) (k : String),
    attrsHasKeyL l k = (lookupL l k).isSome := by
  intro l
  induction l with
  | nil => intro k; rfl
  | cons hd tl ih =>
    intro k
    obtain ⟨k', v⟩ := hd
    by_cases hbeq : k' = k
    · subst hbeq; simp [attrsHasKeyL, lookupL]
    · have hb : (k' == k) = false := by simp [hbeq]
      simpa [attrsHasKeyL, lookupL, hb] using ih k

theorem attrsHasKey_eq_isSome (a : Attributes) (k : String) :
    attrsHasKey a k = (attrLookup a k).isSome := by
  cases a with
  | none => rfl
  | some l => exact attrsHasKeyL_eq_isSome l k

theorem lookupL_filter (pl : List (String × AttrVal)) :
    ∀ (l : List (String × AttrVal)) (k : String),
    lookupL (l.filter (fun kv => !(attrsHasKeyL pl kv.1))) k
      = if attrsHasKeyL pl k then none else lookupL l k := by
  intro l
  induction l with
  | nil => intro k; simp [lookupL]
  | cons hd tl ih =>
    intro k
    obtain ⟨k', v⟩ := hd
    by_cases hkk : k' = k
    · subst hkk
      by_cases hk : attrsHasKeyL pl k'
      · rw [List.filter_cons_of_neg (by simpa using hk), ih, if_pos hk, if_pos hk]
      · have hkf : attrsHasKeyL pl k' = false := by simpa using hk
        rw [List.filter_cons_of_pos (by simpa using hk)]
        simp [lookupL, hkf]
    · have hb : (k' == k) = false := by simp [hkk]
      by_cases hk : attrsHasKeyL pl k'
      · rw [List.filter_cons_of_neg (by simpa using hk), ih]
        simp [lookupL, hb]
      · rw [List.filter_cons_of_pos (by simpa using hk)]
        simp [lookupL, hb, ih k]

theorem bucket_collect_unoffered {b : ExemplarBucket} (h : b.offered = false)
    (pa : Attributes) : b.collect pa = .ok (none, b) := by
  simp [ExemplarBucket.collect, h]

theorem bucket_collect_ok {b : ExemplarBucket} {pa : Attributes}
    {o : Option Exemplar} {b' : ExemplarBucket}
    (h : b.collect pa = .ok (o, b')) :
    b'.offered = false ∧ (b.offered = false → o = none ∧ b' = b) ∧
      (b.offered = true → b' = ExemplarBucket.reset ∧ ∃ ex, o = some ex) := by
  unfold ExemplarBucket.collect at h
  by_cases hb : b.offered
  · rw [if_pos hb] at h
    cases hf : filterAttrs b.attributes pa with
    | error e => rw [hf] at h; cases h
    | ok fa =>
      rw [hf] at h
      simp only [Except.ok.injEq, Prod.mk.injEq] at h
      obtain ⟨ho, hb'⟩ := h
      subst hb'
      refine ⟨rfl, ?_, ?_⟩
      · intro hfalse
        rw [hfalse] at hb
        exact Bool.noConfusion hb
      · intro _
        exact ⟨rfl, _, ho.symm⟩
  · rw [if_neg hb] at h
    simp only [Except.ok.injEq, Prod.mk.injEq] at h
    obtain ⟨ho, hb'⟩ := h
    subst hb'
    simp_all

theorem filterAttrs_some_ok (a : Attributes) (pl : List (String × AttrVal)) :
    ∃ fa, filterAttrs a (some pl) = .ok fa := by
  cases a with
  | none => exact ⟨none, rfl⟩
  | some l =>
    cases l with
    | nil => exact ⟨none, rfl⟩
    | cons hd tl => exact ⟨_, rfl⟩

theorem bucket_collect_some_ok (b : ExemplarBucket) (pl : List (String × AttrVal)) :
    ∃ o b', b.collect (some pl) = .ok (o, b') := by
  unfold ExemplarBucket.collect
  by_cases hb : b.offered
  · rw [if_pos hb]
    obtain ⟨fa, hfa⟩ := filterAttrs_some_ok b.attributes pl
    rw [hfa]
    exact ⟨_, _, rfl⟩
  · rw [if_neg hb]
    exact ⟨_, _, rfl⟩

theorem collectBuckets_ok {pa : Attributes} :
    ∀ {bs es bs'}, collectBuckets pa bs = .ok (es, bs') →
    bs'.length = bs.length ∧ es.length ≤ bs.length ∧ ∀ b ∈ bs', b.offered = false := by
  intro bs
  induction bs with
  | nil =>
    intro es bs' h
    simp only [collectBuckets, Except.ok.injEq, Prod.mk.injEq] at h
    obtain ⟨he, hb⟩ := h
    subst he; subst hb
    simp
  | cons b tl ih =>
    intro es bs' h
    unfold collectBuckets at h
    cases hb : b.collect pa with
    | error e => rw [hb] at h; cases h
    | ok p =>
      obtain ⟨o, b'⟩ := p
      rw [hb] at h
      cases ht : collectBuckets pa tl with
      | error e => rw [ht] at h; cases h
      | ok q =>
        obtain ⟨es2, bs2⟩ := q
        rw [ht] at h
        simp only [Except.ok.injEq, Prod.mk.injEq] at h
        obtain ⟨he, hbs⟩ := h
        subst hbs
        obtain ⟨hlen, hle, hoff⟩ := ih ht
        have hb'off := (bucket_collect_ok hb).1
        refine ⟨by simp [hlen], ?_, ?_⟩
        · subst he
          cases o <;> simp <;> omega
        · intro x hx
          rcases List.mem_cons.mp hx with hx | hx
          · rw [hx]; exact hb'off
          · exact hoff x hx

theorem collectBuckets_unoffered {pa : Attributes} :
    ∀ {bs : List ExemplarBucket}, (∀ b ∈ bs, b.offered = false) →
    collectBuckets pa bs = .ok ([], bs) := by
  intro bs
  induction bs with
  | nil => intro _; rfl
  | cons b tl ih =>
    intro h
    have hb : b.offered = false := h b (List.mem_cons_self b tl)
    have htl : collectBuckets pa tl = .ok ([], tl) :=
      ih (fun x hx => h x (List.mem_cons_of_mem b hx))
    unfold collectBuckets
    rw [bucket_collect_unoffered hb, htl]

theorem collectBuckets_some_ok (pl : List (String × AttrVal)) :
    ∀ (bs : List ExemplarBucket), ∃ es bs',
    collectBuckets (some pl) bs = .ok (es, bs') := by
  intro bs
  induction bs with
  | nil => exact ⟨[], [], rfl⟩
  | cons b tl ih =>
    obtain ⟨o, b', hb⟩ := bucket_collect_some_ok b pl
    obtain ⟨es, bs', ht⟩ := ih
    cases o with
    | some ex =>
      have hc : collectBuckets (some pl) (b :: tl) = .ok (ex :: es, b' :: bs') := by
        unfold collectBuckets
        rw [hb, ht]
      exact ⟨_, _, hc⟩
    | none =>
      have hc : collectBuckets (some pl) (b :: tl) = .ok (es, b' :: bs') := by
        unfold collectBuckets
        rw [hb, ht]
      exact ⟨_, _, hc⟩

theorem bucket_collect_exemplar_attrs {b : ExemplarBucket} {pa : Attributes}
    {ex : Exemplar} {b' : ExemplarBucket}
    (h : b.collect pa = .ok (some ex, b')) :
    b.offered = true ∧
    ∀ k, attrLookup ex.filtered_attributes k
      = if attrsHasKey pa k then none else attrLookup b.attributes k := by
  unfold ExemplarBucket.collect at h
  by_cases hb : b.offered
  · refine ⟨hb, ?_⟩
    rw [if_pos hb] at h
    cases hf : filterAttrs b.attributes pa with
    | error e => rw [hf] at h; cases h
    | ok fa =>
      rw [hf] at h
      simp only [Except.ok.injEq, Prod.mk.injEq, Option.some.injEq] at h
      obtain ⟨hex, _⟩ := h
      have hfa : ex.filtered_attributes = fa := by rw [← hex]
      rw [hfa]
      intro k
      unfold filterAttrs at hf
      cases ha : b.attributes with
      | none =>
        rw [ha] at hf
        simp only [Except.ok.injEq] at hf
        subst hf
        simp [attrLookup, ite_self]
      | some l =>
        rw [ha] at hf
        cases l with
        | nil =>
          simp only [Except.ok.injEq] at hf
          subst hf
          simp [attrLookup, lookupL, ite_self]
        | cons hd tl =>
          cases pa with
          | none => cases hf
          | some pl =>
            simp only [Except.ok.injEq] at hf
            subst hf
            simpa [attrLookup, attrsHasKey] using lookupL_filter pl (hd :: tl) k
  · rw [if_neg hb] at h
    simp at h

theorem collectBuckets_exemplar_src {pa : Attributes} :
    ∀ {bs es bs'}, collectBuckets pa bs = .ok (es, bs') → ∀ ex ∈ es,
    ∃ b ∈ bs, b.offered = true ∧
      ∀ k, attrLookup ex.filtered_attributes k
        = if attrsHasKey pa k then none else attrLookup b.attributes k := by
  intro bs
  induction bs with
  | nil =>
    intro es bs' h ex hex
    simp only [collectBuckets, Except.ok.injEq, Prod.mk.injEq] at h
    obtain ⟨he, _⟩ := h
    subst he
    cases hex
  | cons b tl ih =>
    intro es bs' h ex hex
    unfold collectBuckets at h
    cases hb : b.collect pa with
    | error e => rw [hb] at h; cases h
    | ok p =>
      obtain ⟨o, b'⟩ := p
      rw [hb] at h
      cases ht : collectBuckets pa tl with
      | error e => rw [ht] at h; cases h
      | ok q =>
        obtain ⟨es2, bs2⟩ := q
        rw [ht] at h
        simp only [Except.ok.injEq, Prod.mk.injEq] at h
        obtain ⟨he, _⟩ := h
        cases o with
        | some ex0 =>
          subst he
          rcases List.mem_cons.mp hex with hex | hex
          · subst hex
            obtain ⟨hoff, hattrs⟩ := bucket_collect_exemplar_attrs hb
            exact ⟨b, List.mem_cons_self b tl, hoff, hattrs⟩
          · obtain ⟨b0, hb0, hoff, hattrs⟩ := ih ht ex hex
            exact ⟨b0, List.mem_cons_of_mem b hb0, hoff, hattrs⟩
        | none =>
          subst he
          obtain ⟨b0, hb0, hoff, hattrs⟩ := ih ht ex hex
          exact ⟨b0, List.mem_cons_of_mem b hb0, hoff, hattrs⟩

theorem simple_findBucketIndex_ok {s : SimpleFixedSizeExemplarReservoir} {r i : Int}
    {s' : SimpleFixedSizeExemplarReservoir}
    (h : s.findBucketIndex r = .ok (i, s')) :
    (s.measurements_seen < s.size ∧ i = s.measurements_seen ∧ s' = s) ∨
    (¬ s.measurements_seen < s.size ∧ 0 < s.measurements_seen ∧
      s' = { s with measurements_seen := s.measurements_seen + 1 } ∧
      (i = r ∨ i = -1)) := by
  unfold SimpleFixedSizeExemplarReservoir.findBucketIndex at h
  by_cases h1 : s.measurements_seen < s.size
  · rw [if_pos h1] at h
    simp only [Except.ok.injEq, Prod.mk.injEq] at h
    exact Or.inl ⟨h1, h.1.symm, h.2.symm⟩
  · rw [if_neg h1] at h
    by_cases h2 : s.measurements_seen ≤ 0
    · rw [if_pos h2] at h; cases h
    · rw [if_neg h2] at h
      simp only [Except.ok.injEq, Prod.mk.injEq] at h
      refine Or.inr ⟨h1, by omega, h.2.symm, ?_⟩
      by_cases h3 : r < s.size
      · rw [if_pos h3] at h; exact Or.inl h.1.symm
      · rw [if_neg h3] at h; exact Or.inr h.1.symm

theorem simple_offer_inv {s : SimpleFixedSizeExemplarReservoir} {v : ℚ} {t : Int}
    {a : Attributes} {c : Context} {r : Int} {s' : SimpleFixedSizeExemplarReservoir}
    (h : s.offer v t a c r = .ok s') :
    s'.size = s.size ∧
    s'.reservoir_storage.length = s.reservoir_storage.length ∧
    (s.measurements_seen = 0 → s'.measurements_seen = 0) := by
  unfold SimpleFixedSizeExemplarReservoir.offer at h
  split at h
  · cases h
  · next i s1 hf =>
    have hcases := simple_findBucketIndex_ok hf
    have hs1 : s1.size = s.size ∧ s1.reservoir_storage = s.reservoir_storage ∧
        (s.measurements_seen = 0 → s1.measurements_seen = 0) := by
      rcases hcases with ⟨_, _, hs⟩ | ⟨_, hpos, hs, _⟩
      · subst hs; exact ⟨rfl, rfl, fun h0 => h0⟩
      · subst hs; exact ⟨rfl, rfl, fun h0 => by omega⟩
    obtain ⟨ha, hb, hc⟩ := hs1
    by_cases hi : i = -1
    · rw [if_pos hi] at h
      simp only [Except.ok.injEq] at h
      subst h
      exact ⟨ha, by rw [hb], hc⟩
    · rw [if_neg hi] at h
      split at h
      · cases h
      · next n hp =>
        simp only [Except.ok.injEq] at h
        subst h
        refine ⟨ha, ?_, hc⟩
        simp [hb]

theorem simple_collect_ok {s : SimpleFixedSizeExemplarReservoir} {pa : Attributes}
    {res : List Exemplar} {s' : SimpleFixedSizeExemplarReservoir}
    (h : s.collect pa = .ok (res, s')) :
    s'.size = s.size ∧ s'.measurements_seen = 0 ∧
    collectBuckets pa s.reservoir_storage = .ok (res, s'.reservoir_storage) := by
  unfold SimpleFixedSizeExemplarReservoir.collect at h
  split at h
  · cases h
  · next es st hcb =>
    simp only [Except.ok.injEq, Prod.mk.injEq] at h
    obtain ⟨he, hs⟩ := h
    subst he
    refine ⟨by rw [← hs], by rw [← hs], ?_⟩
    rw [← hs]
    exact hcb

/-- Invariant of reachable states of `SimpleFixedSizeExemplarReservoir`:
the stored size is the construction capacity, the bucket list keeps that
length, and — because the source never increments `_measurements_seen` on
the filling branch — the counter is 0 in every reachable state. -/
theorem simple_reachable_inv {N : Nat} {s : SimpleFixedSizeExemplarReservoir}
    (h : SimpleReachable N s) :
    s.size = (N : Int) ∧ s.reservoir_storage.length = N ∧ s.measurements_seen = 0 := by
  induction h with
  | init =>
    refine ⟨rfl, ?_, rfl⟩
    simp [SimpleFixedSizeExemplarReservoir.init]
  | offer hr hoff ih =>
    obtain ⟨hsz, hlen, hseen⟩ := ih
    obtain ⟨h1, h2, h3⟩ := simple_offer_inv hoff
    exact ⟨by rw [h1, hsz], by rw [h2, hlen], h3 hseen⟩
  | collect hr hcoll ih =>
    obtain ⟨hsz, hlen, hseen⟩ := ih
    obtain ⟨h1, h2, h3⟩ := simple_collect_ok hcoll
    have := (collectBuckets_ok h3).1
    exact ⟨by rw [h1, hsz], by rw [this, hlen], h2⟩

theorem aligned_findBucketIndex_le (v : ℚ) :
    ∀ bs : List ℚ, AlignedHistogramBucketExemplarReservoir.findBucketIndex bs v ≤ bs.length := by
  intro bs
  induction bs with
  | nil => simp [AlignedHistogramBucketExemplarReservoir.findBucketIndex]
  | cons b t ih =>
    by_cases hv : v ≤ b
    · simp [AlignedHistogramBucketExemplarReservoir.findBucketIndex, hv]
    · simp only [AlignedHistogramBucketExemplarReservoir.findBucketIndex, if_neg hv,
        List.length_cons]
      omega

theorem aligned_findBucketIndex_least (v : ℚ) :
    ∀ bs : List ℚ,
    (AlignedHistogramBucketExemplarReservoir.findBucketIndex bs v < bs.length →
      v ≤ bs.getD (AlignedHistogramBucketExemplarReservoir.findBucketIndex bs v) 0) ∧
    ∀ j, j < AlignedHistogramBucketExemplarReservoir.findBucketIndex bs v →
      ¬ v ≤ bs.getD j 0 := by
  intro bs
  induction bs with
  | nil =>
    constructor
    · intro h; simp [AlignedHistogramBucketExemplarReservoir.findBucketIndex] at h
    · intro j hj; simp [AlignedHistogramBucketExemplarReservoir.findBucketIndex] at hj
  | cons b t ih =>
    obtain ⟨ih1, ih2⟩ := ih
    by_cases hv : v ≤ b
    · constructor
      · intro _
        simp [AlignedHistogramBucketExemplarReservoir.findBucketIndex, hv]
      · intro j hj
        simp [AlignedHistogramBucketExemplarReservoir.findBucketIndex, hv] at hj
    · constructor
      · intro hlt
        simp only [AlignedHistogramBucketExemplarReservoir.findBucketIndex, if_neg hv] at hlt ⊢
        simp only [List.getD_cons_succ]
        exact ih1 (by simpa using hlt)
      · intro j hj
        simp only [AlignedHistogramBucketExemplarReservoir.findBucketIndex, if_neg hv] at hj
        cases j with
        | zero => simpa using hv
        | succ j' =>
          simp only [List.getD_cons_succ]
          exact ih2 j' (by omega)

theorem pyIdx_nat {len i : Nat} (h : i < len) : pyIdx len (i : Int) = some i := by
  unfold pyIdx
  have h0 : ¬ ((i : Int) < 0) := by omega
  rw [if_neg h0, if_pos (by constructor <;> omega)]
  simp

theorem aligned_offer_shape (s : AlignedHistogramBucketExemplarReservoir) (v : ℚ)
    (t : Int) (a : Attributes) (c : Context)
    (hlen : AlignedHistogramBucketExemplarReservoir.findBucketIndex s.boundaries v
      < s.reservoir_storage.length) :
    s.offer v t a c =
      (let i := AlignedHistogramBucketExemplarReservoir.findBucketIndex s.boundaries v
       let bNew := (s.reservoir_storage.getD i ExemplarBucket.init).offer v t a c
       .ok { s with reservoir_storage := s.reservoir_storage.set i bNew }) := by
  simp only [AlignedHistogramBucketExemplarReservoir.offer, pyIdx_nat hlen]

theorem aligned_offer_inv {s : AlignedHistogramBucketExemplarReservoir} {v : ℚ}
    {t : Int} {a : Attributes} {c : Context} {s' : AlignedHistogramBucketExemplarReservoir}
    (h : s.offer v t a c = .ok s') :
    s'.boundaries = s.boundaries ∧ s'.size = s.size ∧
    s'.reservoir_storage.length = s.reservoir_storage.length := by
  unfold AlignedHistogramBucketExemplarReservoir.offer at h
  split at h
  · cases h
  · next n hp =>
    simp only [Except.ok.injEq] at h
    subst h
    exact ⟨rfl, rfl, by simp⟩

theorem aligned_collect_ok {s : AlignedHistogramBucketExemplarReservoir}
    {pa : Attributes} {res : List Exemplar} {s' : AlignedHistogramBucketExemplarReservoir}
    (h : s.collect pa = .ok (res, s')) :
    s'.boundaries = s.boundaries ∧ s'.size = s.size ∧
    collectBuckets pa s.reservoir_storage = .ok (res, s'.reservoir_storage) := by
  unfold AlignedHistogramBucketExemplarReservoir.collect at h
  split at h
  · cases h
  · next es st hcb =>
    simp only [Except.ok.injEq, Prod.mk.injEq] at h
    obtain ⟨he, hs⟩ := h
    subst he
    refine ⟨by rw [← hs], by rw [← hs], ?_⟩
    rw [← hs]
    exact hcb

/-- Invariant of reachable states of `AlignedHistogramBucketExemplarReservoir`:
the boundaries are the construction parameter and the bucket list always has
`len(boundaries) + 1` elements. -/
theorem aligned_reachable_inv {bs : List ℚ} {s : AlignedHistogramBucketExemplarReservoir}
    (h : AlignedReachable bs s) :
    s.boundaries = bs ∧ s.reservoir_storage.length = bs.length + 1 := by
  induction h with
  | init =>
    refine ⟨rfl, ?_⟩
    simp [AlignedHistogramBucketExemplarReservoir.init]
  | offer hr hoff ih =>
    obtain ⟨hb, hlen⟩ := ih
    obtain ⟨h1, _, h3⟩ := aligned_offer_inv hoff
    exact ⟨by rw [h1, hb], by rw [h3, hlen]⟩
  | collect hr hcoll ih =>
    obtain ⟨hb, hlen⟩ := ih
    obtain ⟨h1, _, h3⟩ := aligned_collect_ok hcoll
    have := (collectBuckets_ok h3).1
    exact ⟨by rw [h1, hb], by rw [this, hlen]⟩

/-- Whether an `Except` computation succeeded (no exception raised). -/
def exceptIsOk {ε α : Type} (e : Except ε α) : Bool :=
  match e with
  | .ok _ => true
  | .error _ => false

theorem exceptIsOk_of_ok {ε α : Type} {e : Except ε α} {x : α}
    (h : e = .ok x) : exceptIsOk e = true := by
  rw [h]; rfl

theorem pyIdx_zero {len : Nat} (h : 0 < len) : pyIdx len 0 = some 0 := by
  simpa using @pyIdx_nat len 0 h

theorem simple_collect_twice {s : SimpleFixedSizeExemplarReservoir}
    {pa₁ : Attributes} {r₁ : List Exemplar} {s₁ : SimpleFixedSizeExemplarReservoir}
    (h : s.collect pa₁ = .ok (r₁, s₁)) (pa₂ : Attributes) :
    s₁.collect pa₂ = .ok ([], s₁) := by
  obtain ⟨hsz, hseen, hcb⟩ := simple_collect_ok h
  have hoff := (collectBuckets_ok hcb).2.2
  have h2 : collectBuckets pa₂ s₁.reservoir_storage = .ok ([], s₁.reservoir_storage) :=
    collectBuckets_unoffered hoff
  have hs : { s₁ with reservoir_storage := s₁.reservoir_storage, measurements_seen := 0 } = s₁ := by
    cases s₁ with
    | mk sz st ms =>
      have hms : ms = 0 := hseen
      rw [hms]
  have hstep : s₁.collect pa₂ = .ok ([], { s₁ with reservoir_storage := s₁.reservoir_storage, measurements_seen := 0 }) := by
    unfold SimpleFixedSizeExemplarReservoir.collect
    rw [h2]
  rw [hstep, hs]

theorem aligned_collect_twice {s : AlignedHistogramBucketExemplarReservoir}
    {pa₁ : Attributes} {r₁ : List Exemplar} {s₁ : AlignedHistogramBucketExemplarReservoir}
    (h : s.collect pa₁ = .ok (r₁, s₁)) (pa₂ : Attributes) :
    s₁.collect pa₂ = .ok ([], s₁) := by
  obtain ⟨hb, hsz, hcb⟩ := aligned_collect_ok h
  have hoff := (collectBuckets_ok hcb).2.2
  have h2 : collectBuckets pa₂ s₁.reservoir_storage = .ok ([], s₁.reservoir_storage) :=
    collectBuckets_unoffered hoff
  unfold AlignedHistogramBucketExemplarReservoir.collect
  rw [h2]

theorem simple_collect_some_ok (s : SimpleFixedSizeExemplarReservoir)
    (pl : List (String × AttrVal)) : exceptIsOk (s.collect (some pl)) = true := by
  obtain ⟨es, st, hcb⟩ := collectBuckets_some_ok pl s.reservoir_storage
  apply exceptIsOk_of_ok
  unfold SimpleFixedSizeExemplarReservoir.collect
  rw [hcb]

theorem aligned_collect_some_ok (s : AlignedHistogramBucketExemplarReservoir)
    (pl : List (String × AttrVal)) : exceptIsOk (s.collect (some pl)) = true := by
  obtain ⟨es, st, hcb⟩ := collectBuckets_some_ok pl s.reservoir_storage
  apply exceptIsOk_of_ok
  unfold AlignedHistogramBucketExemplarReservoir.collect
  rw [hcb]

theorem simple_offer_reachable_ok {N : Nat} {s : SimpleFixedSizeExemplarReservoir}
    (hN : 1 ≤ N) (hr : SimpleReachable N s) (v : ℚ) (t : Int) (a : Attributes)
    (c : Context) (r : Int) : exceptIsOk (s.offer v t a c r) = true := by
  obtain ⟨hsz, hlen, hseen⟩ := simple_reachable_inv hr
  have hcond : s.measurements_seen < s.size := by
    rw [hseen, hsz]
    omega
  have hfbi : s.findBucketIndex r = .ok (s.measurements_seen, s) := by
    unfold SimpleFixedSizeExemplarReservoir.findBucketIndex
    rw [if_pos hcond]
  have hp : pyIdx s.reservoir_storage.length 0 = some 0 := pyIdx_zero (by omega)
  simp only [exceptIsOk, SimpleFixedSizeExemplarReservoir.offer, hfbi, hseen, hp]
  simp

theorem aligned_offer_reachable_ok {bs : List ℚ} {s : AlignedHistogramBucketExemplarReservoir}
    (hr : AlignedReachable bs s) (v : ℚ) (t : Int) (a : Attributes) (c : Context) :
    exceptIsOk (s.offer v t a c) = true := by
  obtain ⟨hb, hlen⟩ := aligned_reachable_inv hr
  have hlt : AlignedHistogramBucketExemplarReservoir.findBucketIndex s.boundaries v
      < s.reservoir_storage.length := by
    rw [hb, hlen]
    have := aligned_findBucketIndex_le v bs
    omega
  apply exceptIsOk_of_ok
  exact aligned_offer_shape s v t a c hlt

theorem collectBuckets_filters {pa : Attributes} {bs : List ExemplarBucket}
    {es : List Exemplar} {bs' : List ExemplarBucket}
    (h : collectBuckets pa bs = .ok (es, bs')) {ex : Exemplar} (hex : ex ∈ es) :
    ∀ k, attrsHasKey pa k = true → attrsHasKey ex.filtered_attributes k = false := by
  intro k hpk
  obtain ⟨b, _, _, hattrs⟩ := collectBuckets_exemplar_src h ex hex
  rw [attrsHasKey_eq_isSome, hattrs k, if_pos hpk]
  rfl

/-! ## Claim theorems -/

/-- C1 (code divergence): the claim says `_measurements_seen` is incremented
by exactly one on every `offer`, on the filling branch as well as the
random-draw branch. The code's filling branch returns early without touching
the counter: after one offer — and after two — to a fresh capacity-2
reservoir, `_measurements_seen` is still 0 (the claim requires 1 and 2). -/
theorem measurements_seen_not_incremented_on_fill :
    (((SimpleFixedSizeExemplarReservoir.init 2).offer 1 0 none none 0).map
      (fun s => s.measurements_seen)) = .ok 0 ∧
    ((((SimpleFixedSizeExemplarReservoir.init 2).offer 1 0 none none 0).bind
      (fun s => s.offer 5 1 none none 0)).map
      (fun s => s.measurements_seen)) = .ok 0 := by
  constructor <;> rfl

/-- C2 (code divergence): the claim says offering `M ≤ N` distinct
measurements after a reset and collecting yields exactly `M` exemplars. With
`N = 2` and the two distinct measurements 1 and 2, the code returns a single
exemplar: because `_measurements_seen` is never advanced during the filling
phase, both offers land in bucket 0 and the second overwrites the first. -/
theorem fill_phase_loses_measurements :
    ((((SimpleFixedSizeExemplarReservoir.init 2).offer 1 0 none none 0).bind
      (fun s => s.offer 2 0 none none 0)).bind
      (fun s => (s.collect (some [])).map (fun p => p.1.length))) = .ok 1 := by
  rfl

/-- C3 counterexample: constructing a fixed-size reservoir with capacity 0
does not report an error: it produces an instance (with an empty bucket
list) whose `collect` works normally, so construction with `N ≤ 0` succeeds
rather than failing. -/
theorem init_capacity_zero_succeeds :
    (SimpleFixedSizeExemplarReservoir.init 0).reservoir_storage = [] ∧
    (SimpleFixedSizeExemplarReservoir.init 0).collect none
      = .ok ([], SimpleFixedSizeExemplarReservoir.init 0) :=
  ⟨rfl, rfl⟩

/-- C3 amended: constructing a fixed-size reservoir with capacity `N ≤ 0`
does not fail — the constructor performs no validation; `range(N)` is empty,
so the instance holds an empty bucket list and its `collect` succeeds,
returning no exemplars. -/
theorem init_nonpositive_capacity_no_error {N : Int} (h : N ≤ 0) :
    (SimpleFixedSizeExemplarReservoir.init N).reservoir_storage = [] ∧
    ∀ pa, (SimpleFixedSizeExemplarReservoir.init N).collect pa
      = .ok ([], SimpleFixedSizeExemplarReservoir.init N) := by
  have h0 : N.toNat = 0 := Int.toNat_eq_zero.mpr h
  have hempty : SimpleFixedSizeExemplarReservoir.init N = ⟨N, [], 0⟩ := by
    unfold SimpleFixedSizeExemplarReservoir.init
    rw [h0]
    rfl
  rw [hempty]
  exact ⟨rfl, fun pa => rfl⟩

/-- Witness for C3 amended, at concrete capacity `-1`. -/
theorem init_nonpositive_capacity_no_error_witness :
    (SimpleFixedSizeExemplarReservoir.init (-1)).reservoir_storage = [] ∧
    ∀ pa, (SimpleFixedSizeExemplarReservoir.init (-1)).collect pa
      = .ok ([], SimpleFixedSizeExemplarReservoir.init (-1)) :=
  init_nonpositive_capacity_no_error (by decide)

/-- C4 counterexample: the claim says that after `offer` with no valid span
the bucket's span and trace ids are absent in any prior state. Starting from
a bucket that already holds span id 7 / trace id 9 (captured by an earlier
offer with a valid span), an `offer` with no valid span leaves the stale ids
in place, and the next `collect` emits an Exemplar carrying them. -/
theorem offer_without_span_keeps_stale_ids :
    (((ExemplarBucket.init.offer 1 0 none (some ⟨7, 9⟩)).offer 2 1 none none).span_id
      = some 7) ∧
    (((ExemplarBucket.init.offer 1 0 none (some ⟨7, 9⟩)).offer 2 1 none none).trace_id
      = some 9) ∧
    (((ExemplarBucket.init.offer 1 0 none (some ⟨7, 9⟩)).offer 2 1 none none).collect
        (some [])
      = .ok (some ⟨none, 2, 1, some 7, some 9⟩, ExemplarBucket.reset)) :=
  ⟨rfl, rfl, rfl⟩

/-- C4 amended: `offer` with a context holding no valid span leaves the
bucket's span and trace ids unchanged (rather than clearing them); in
particular, starting from the freshly-constructed bucket they remain absent
and the next `collect` produces an Exemplar with no span or trace identity. -/
theorem offer_without_span_leaves_ids_unchanged :
    (∀ (b : ExemplarBucket) (v : ℚ) (t : Int) (a : Attributes),
      (b.offer v t a none).span_id = b.span_id ∧
      (b.offer v t a none).trace_id = b.trace_id) ∧
    (∀ (v : ℚ) (t : Int) (a : Attributes),
      (ExemplarBucket.init.offer v t a none).span_id = none ∧
      (ExemplarBucket.init.offer v t a none).trace_id = none) ∧
    (∀ (v : ℚ) (t : Int),
      (ExemplarBucket.init.offer v t none none).collect (some [])
        = .ok (some ⟨none, v, t, none, none⟩, ExemplarBucket.reset)) :=
  ⟨fun _ _ _ _ => ⟨rfl, rfl⟩, fun _ _ _ => ⟨rfl, rfl⟩, fun _ _ => rfl⟩

/-- C5: `_find_bucket_index` of the histogram-aligned reservoir returns the
least index `i` with `value ≤ boundaries[i]` (never beyond `len(boundaries)`,
which it returns when no boundary qualifies); with boundaries `[10, 20]`,
value 5 goes to bucket 0, 15 to bucket 1, 25 to bucket 2, and offering 5
then 8 into the reservoir leaves a single exemplar with value 8 (the later
offer to the same bucket replaced the earlier sample). -/
theorem aligned_bucket_selection :
    (∀ (bs : List ℚ) (v : ℚ),
      AlignedHistogramBucketExemplarReservoir.findBucketIndex bs v ≤ bs.length ∧
      (AlignedHistogramBucketExemplarReservoir.findBucketIndex bs v < bs.length →
        v ≤ bs.getD (AlignedHistogramBucketExemplarReservoir.findBucketIndex bs v) 0) ∧
      (∀ j, j < AlignedHistogramBucketExemplarReservoir.findBucketIndex bs v →
        ¬ v ≤ bs.getD j 0)) ∧
    AlignedHistogramBucketExemplarReservoir.findBucketIndex [10, 20] 5 = 0 ∧
    AlignedHistogramBucketExemplarReservoir.findBucketIndex [10, 20] 15 = 1 ∧
    AlignedHistogramBucketExemplarReservoir.findBucketIndex [10, 20] 25 = 2 ∧
    (((AlignedHistogramBucketExemplarReservoir.init [10, 20]).offer 5 0 none none).bind
      (fun s₁ => (s₁.offer 8 1 none none).bind
        (fun s₂ => (s₂.collect (some [])).map Prod.fst)))
      = Except.ok [⟨none, 8, 1, none, none⟩] := by
  refine ⟨fun bs v => ⟨aligned_findBucketIndex_le v bs,
    (aligned_findBucketIndex_least v bs).1, (aligned_findBucketIndex_least v bs).2⟩,
    ?_, ?_, ?_, ?_⟩ <;> rfl

/-- Witness for C5 at boundaries `[10, 20]` and value 15 (index 1): the
selected boundary admits the value and the earlier boundary rejects it. -/
theorem aligned_bucket_selection_witness :
    ((15:ℚ) ≤ ([10, 20] : List ℚ).getD 1 0) ∧ ¬ (15:ℚ) ≤ ([10, 20] : List ℚ).getD 0 0 :=
  ⟨(aligned_bucket_selection.1 [10, 20] 15).2.1 (by decide),
   (aligned_bucket_selection.1 [10, 20] 15).2.2 0 (by decide)⟩

/-- C6: every exemplar produced by a `collect(point_attributes)` call (of the
shared fixed-size collect loop, hence of both concrete reservoirs) has no
attribute key in common with `point_attributes`; its attributes are the
originating bucket's stored attributes with every key present in
`point_attributes` removed (equality of mappings, i.e. of key lookups). -/
theorem collect_filters_point_attribute_keys :
    (∀ (pa : Attributes) (bs : List ExemplarBucket) es bs',
      collectBuckets pa bs = .ok (es, bs') → ∀ ex ∈ es,
      (∀ k, attrsHasKey pa k = true → attrsHasKey ex.filtered_attributes k = false) ∧
      ∃ b ∈ bs, b.offered = true ∧
        ∀ k, attrLookup ex.filtered_attributes k
          = if attrsHasKey pa k then none else attrLookup b.attributes k) ∧
    (∀ (s : SimpleFixedSizeExemplarReservoir) (pa : Attributes) res s',
      s.collect pa = .ok (res, s') → ∀ ex ∈ res,
      ∀ k, attrsHasKey pa k = true → attrsHasKey ex.filtered_attributes k = false) ∧
    (∀ (s : AlignedHistogramBucketExemplarReservoir) (pa : Attributes) res s',
      s.collect pa = .ok (res, s') → ∀ ex ∈ res,
      ∀ k, attrsHasKey pa k = true → attrsHasKey ex.filtered_attributes k = false) := by
  refine ⟨?_, ?_, ?_⟩
  · intro pa bs es bs' h ex hex
    exact ⟨collectBuckets_filters h hex, collectBuckets_exemplar_src h ex hex⟩
  · intro s pa res s' h ex hex
    exact collectBuckets_filters (simple_collect_ok h).2.2 hex
  · intro s pa res s' h ex hex
    exact collectBuckets_filters (aligned_collect_ok h).2.2 hex

/-- Witness for C6: a concrete collect whose point attributes contain key
`"a"`; the collected exemplar's filtered attributes do not contain `"a"`. -/
theorem collect_filters_point_attribute_keys_witness :
    attrsHasKey (some [("b", (2:AttrVal))]) "a" = false :=
  collect_filters_point_attribute_keys.2.1
    ⟨1, [⟨2, some [("a", 1), ("b", 2)], 5, none, none, true⟩], 0⟩
    (some [("a", 9)])
    [⟨some [("b", 2)], 2, 5, none, none⟩]
    ⟨1, [ExemplarBucket.reset], 0⟩
    rfl
    ⟨some [("b", 2)], 2, 5, none, none⟩
    (List.mem_singleton.mpr rfl)
    "a" rfl

/-- C7: for both reservoir types, in every state, a second `collect` right
after a successful one (no intervening `offer`) returns the empty list and
leaves the state unchanged: the first collect left every bucket with
`offered = false`. -/
theorem collect_twice_returns_empty :
    (∀ (s : SimpleFixedSizeExemplarReservoir) (pa₁ : Attributes) r₁ s₁
      (pa₂ : Attributes), s.collect pa₁ = .ok (r₁, s₁) →
      s₁.collect pa₂ = .ok ([], s₁)) ∧
    (∀ (s : AlignedHistogramBucketExemplarReservoir) (pa₁ : Attributes) r₁ s₁
      (pa₂ : Attributes), s.collect pa₁ = .ok (r₁, s₁) →
      s₁.collect pa₂ = .ok ([], s₁)) :=
  ⟨fun _ _ _ _ pa₂ h => simple_collect_twice h pa₂,
   fun _ _ _ _ pa₂ h => aligned_collect_twice h pa₂⟩

/-- Witness for C7: a fresh capacity-1 reservoir; the collect after a
successful collect returns the empty list. -/
theorem collect_twice_returns_empty_witness :
    (SimpleFixedSizeExemplarReservoir.mk 1 [ExemplarBucket.init] 0).collect none
      = .ok ([], SimpleFixedSizeExemplarReservoir.mk 1 [ExemplarBucket.init] 0) :=
  collect_twice_returns_empty.1 (SimpleFixedSizeExemplarReservoir.init 1) none []
    (SimpleFixedSizeExemplarReservoir.mk 1 [ExemplarBucket.init] 0) none rfl

/-- C8: in every reachable state of a fixed-size reservoir of capacity `N`
(`N = len(boundaries) + 1` for the histogram-aligned variant), a successful
`collect` returns at most `N` exemplars, leaves every bucket empty
(`offered = false`), and resets the uniform-sampling measurement counter
to 0. -/
theorem collect_bounded_and_resets :
    (∀ (N : Nat) (s : SimpleFixedSizeExemplarReservoir) (pa : Attributes) res s',
      SimpleReachable N s → s.collect pa = .ok (res, s') →
      res.length ≤ N ∧ (∀ b ∈ s'.reservoir_storage, b.offered = false) ∧
      s'.measurements_seen = 0) ∧
    (∀ (bs : List ℚ) (s : AlignedHistogramBucketExemplarReservoir)
      (pa : Attributes) res s',
      AlignedReachable bs s → s.collect pa = .ok (res, s') →
      res.length ≤ bs.length + 1 ∧ ∀ b ∈ s'.reservoir_storage, b.offered = false) := by
  constructor
  · intro N s pa res s' hr h
    obtain ⟨hsz, hlen, hseen⟩ := simple_reachable_inv hr
    obtain ⟨_, hseen', hcb⟩ := simple_collect_ok h
    obtain ⟨hlen', hle, hoff⟩ := collectBuckets_ok hcb
    exact ⟨by omega, hoff, hseen'⟩
  · intro bs s pa res s' hr h
    obtain ⟨hb, hlen⟩ := aligned_reachable_inv hr
    obtain ⟨_, _, hcb⟩ := aligned_collect_ok h
    obtain ⟨hlen', hle, hoff⟩ := collectBuckets_ok hcb
    exact ⟨by omega, hoff⟩

/-- Witness for C8: collecting a fresh capacity-1 reservoir returns no
exemplars (0 ≤ 1), all buckets empty, counter 0. -/
theorem collect_bounded_and_resets_witness :
    ([] : List Exemplar).length ≤ 1 ∧
    (∀ b ∈ (SimpleFixedSizeExemplarReservoir.mk 1 [ExemplarBucket.init] 0).reservoir_storage,
      b.offered = false) ∧
    (SimpleFixedSizeExemplarReservoir.mk 1 [ExemplarBucket.init] 0).measurements_seen = 0 :=
  collect_bounded_and_resets.1 1 (SimpleFixedSizeExemplarReservoir.init 1) none []
    (SimpleFixedSizeExemplarReservoir.mk 1 [ExemplarBucket.init] 0)
    (SimpleReachable.init 1) rfl

/-- C9 counterexample: the claim says `collect` completes without raising for
every valid `Attributes` value, including the absent/`None` mapping. After
offering a measurement with attributes `{"a": 1}` to a capacity-1 reservoir,
`collect(None)` raises `TypeError` (`k not in None` in the dict
comprehension of `ExemplarBucket.collect`). -/
theorem collect_none_raises_type_error :
    ((SimpleFixedSizeExemplarReservoir.init 1).offer 1 0 (some [("a", 1)]) none 0).bind
      (fun s => s.collect none) = .error "TypeError" := by
  rfl

/-- C9 amended: `offer` and `collect` never fail for well-typed inputs as
long as `collect`'s `point_attributes` is an actual (possibly empty) mapping:
`collect(some pl)` succeeds for every bucket state of either reservoir, and
`offer` succeeds in every reachable state (of positive capacity, for the
uniform reservoir). When `point_attributes` is the absent/`None` mapping and
an offered bucket stores a non-empty attribute map, `collect` raises
`TypeError` instead. -/
theorem offer_collect_no_failure_on_mappings :
    (∀ (s : SimpleFixedSizeExemplarReservoir) (pl : List (String × AttrVal)),
      exceptIsOk (s.collect (some pl)) = true) ∧
    (∀ (s : AlignedHistogramBucketExemplarReservoir) (pl : List (String × AttrVal)),
      exceptIsOk (s.collect (some pl)) = true) ∧
    (∀ (N : Nat) (s : SimpleFixedSizeExemplarReservoir), 1 ≤ N →
      SimpleReachable N s → ∀ (v : ℚ) (t : Int) (a : Attributes) (c : Context)
      (r : Int), exceptIsOk (s.offer v t a c r) = true) ∧
    (∀ (bs : List ℚ) (s : AlignedHistogramBucketExemplarReservoir),
      AlignedReachable bs s → ∀ (v : ℚ) (t : Int) (a : Attributes) (c : Context),
      exceptIsOk (s.offer v t a c) = true) :=
  ⟨simple_collect_some_ok, aligned_collect_some_ok,
   fun _ _ hN hr => simple_offer_reachable_ok hN hr,
   fun _ _ hr => aligned_offer_reachable_ok hr⟩

/-- Witness for C9 amended: a fresh capacity-1 reservoir collects and offers
without an exception when the point attributes are a mapping. -/
theorem offer_collect_no_failure_on_mappings_witness :
    exceptIsOk ((SimpleFixedSizeExemplarReservoir.init 1).collect (some [])) = true ∧
    exceptIsOk ((SimpleFixedSizeExemplarReservoir.init 1).offer 1 0 none none 0) = true :=
  ⟨offer_collect_no_failure_on_mappings.1 (SimpleFixedSizeExemplarReservoir.init 1) [],
   offer_collect_no_failure_on_mappings.2.2.1 1 (SimpleFixedSizeExemplarReservoir.init 1)
     (by decide) (SimpleReachable.init 1) 1 0 none none 0⟩

/-- C10: for every reachable state of an `AlignedHistogramBucketExemplarReservoir`
built from `bs`, `_find_bucket_index` returns an index in `[0, len(bs)]`,
which is within the `len(bs) + 1` buckets, and `offer` succeeds, writing
exactly the selected bucket (marked offered) and leaving every other bucket
unchanged — no offer is ever discarded. -/
theorem aligned_offer_writes_one_bucket_in_bounds :
    ∀ (bs : List ℚ) (s : AlignedHistogramBucketExemplarReservoir),
    AlignedReachable bs s → ∀ (v : ℚ) (t : Int) (a : Attributes) (c : Context),
    AlignedHistogramBucketExemplarReservoir.findBucketIndex bs v ≤ bs.length ∧
    AlignedHistogramBucketExemplarReservoir.findBucketIndex s.boundaries v
      < s.reservoir_storage.length ∧
    s.offer v t a c =
      (let i := AlignedHistogramBucketExemplarReservoir.findBucketIndex s.boundaries v
       let bNew := (s.reservoir_storage.getD i ExemplarBucket.init).offer v t a c
       .ok { s with reservoir_storage := s.reservoir_storage.set i bNew }) ∧
    (∀ j, j ≠ AlignedHistogramBucketExemplarReservoir.findBucketIndex s.boundaries v →
      (s.reservoir_storage.set
          (AlignedHistogramBucketExemplarReservoir.findBucketIndex s.boundaries v)
          ((s.reservoir_storage.getD
              (AlignedHistogramBucketExemplarReservoir.findBucketIndex s.boundaries v)
              ExemplarBucket.init).offer v t a c)).getD j ExemplarBucket.init
        = s.reservoir_storage.getD j ExemplarBucket.init) ∧
    ((s.reservoir_storage.set
        (AlignedHistogramBucketExemplarReservoir.findBucketIndex s.boundaries v)
        ((s.reservoir_storage.getD
            (AlignedHistogramBucketExemplarReservoir.findBucketIndex s.boundaries v)
            ExemplarBucket.init).offer v t a c)).getD
        (AlignedHistogramBucketExemplarReservoir.findBucketIndex s.boundaries v)
        ExemplarBucket.init).offered = true := by
  intro bs s hr v t a c
  obtain ⟨hb, hlen⟩ := aligned_reachable_inv hr
  have hle := aligned_findBucketIndex_le v bs
  have hlt : AlignedHistogramBucketExemplarReservoir.findBucketIndex s.boundaries v
      < s.reservoir_storage.length := by
    rw [hb, hlen]
    omega
  refine ⟨hle, hlt, aligned_offer_shape s v t a c hlt, ?_, ?_⟩
  · intro j hj
    exact getD_set_ne _ _ _ _ _ hj
  · rw [getD_set_self _ _ _ _ hlt]
    rfl

/-- Witness for C10: the reservoir built from boundaries `[10, 20]`, offered
value 5: the selected index is within bounds and the written bucket is
marked offered. -/
theorem aligned_offer_writes_one_bucket_in_bounds_witness :
    AlignedHistogramBucketExemplarReservoir.findBucketIndex [10, 20] 5 ≤ 2 ∧
    (((AlignedHistogramBucketExemplarReservoir.init [10, 20]).reservoir_storage.set
        (AlignedHistogramBucketExemplarReservoir.findBucketIndex [10, 20] 5)
        (((AlignedHistogramBucketExemplarReservoir.init [10, 20]).reservoir_storage.getD
            (AlignedHistogramBucketExemplarReservoir.findBucketIndex [10, 20] 5)
            ExemplarBucket.init).offer 5 0 none none)).getD
        (AlignedHistogramBucketExemplarReservoir.findBucketIndex [10, 20] 5)
        ExemplarBucket.init).offered = true :=
  ⟨(aligned_offer_writes_one_bucket_in_bounds [10, 20]
      (AlignedHistogramBucketExemplarReservoir.init [10, 20])
      (AlignedReachable.init [10, 20]) 5 0 none none).1,
   (aligned_offer_writes_one_bucket_in_bounds [10, 20]
      (AlignedHistogramBucketExemplarReservoir.init [10, 20])
      (AlignedReachable.init [10, 20]) 5 0 none none).2.2.2.2⟩
